import Mathlib

/-!
Shallow embedding of the `ipnserver` package (Tailscale local IPN server:
session tracking, single-active-user enforcement, local-API permissions,
and server lifecycle), together with the non-Windows `getConnIdentity`
identity resolver.

Go's stateful methods are modelled as explicit state-passing functions on
`ServerState`; observable side effects on the backend
(`SetCurrentUserID`, `ResetForClientDisconnect`, `Start`) and
mutex acquisition/release are recorded in an event trace so that
ordering and exactly-once properties can be stated.
-/

namespace IpnServer

/-- Peer credentials of a unix-socket connection (`peercred.Creds`).
`userID` models `Creds.UserID() (string, bool)`: `some uid` when the
second return value is true. -/
structure Creds where
  userID : Option String
  deriving DecidableEq, Repr

/-- Resolved identity of the process at the other end of a connection
(`ipnauth.ConnIdentity`). The struct itself lives outside src; its fields
are taken from the spec's data model ("transport kind, optional process
id, resolved user id (string form), optional display username, optional
OS credential tuple") and its accessors `WindowsUserID()`, `User().Username`,
`Pid()`, `IsUnixSock()`, `Creds()` are modelled as field reads. -/
structure ConnIdentity where
  windowsUserID : String
  username : String
  pid : Nat
  isUnixSock : Bool
  creds : Option Creds
  deriving DecidableEq, Repr

/-- The slice of `ipnlocal.LocalBackend` observed by this package:
its connection policy, operator setting, server-mode flag and prefs
validity are treated as parameters fixed for the modelled step. -/
structure LocalBackend where
  checkIPNConnectionAllowed : ConnIdentity → Option String
  operatorUserID : String
  inServerMode : Bool
  prefsValid : Bool

/-- State of `ipnserver.Server`: the exactly-once-settable backend
pointer, the reset-on-idle flag, the `sync.Once` guard and `runCalled`
flag, and (guarded by `mu` in Go) the last user id and the active
request map, modelled as an association list keyed by request id. -/
structure ServerState where
  lb : Option LocalBackend
  resetOnZero : Bool
  startBackendOnceDone : Bool
  runCalled : Bool
  lastUserID : String
  activeReqs : List (Nat × ConnIdentity)

/-- Observable events of one operation, in program order. -/
inductive Event where
  | muLock
  | muUnlock
  | register (req : Nat)
  | setCurrentUserID (uid : String)
  | reset
  | start
  deriving DecidableEq, Repr

/-- Error classification for `checkConnIdentityLocked`; both variants are
wrapped in `inUseOtherUserError` by the Go code. -/
inductive IPNError where
  | otherUser (username : String) (pid : Nat)
  | backendDenied (msg : String)
  deriving DecidableEq, Repr

/-- Errors returned by `addActiveHTTPRequest`. -/
inductive AddError where
  | nilConnIdentity
  | inUse (e : IPNError)
  deriving DecidableEq, Repr

/-- Outcome of a call that may error or panic. -/
inductive AddOutcome where
  | ok
  | errored (e : AddError)
  | panicked (msg : String)
  deriving DecidableEq, Repr

/-- `Server.New`: fresh server; `resetOnZero` is `envknob.GOOS() == "windows"`. -/
def New (goos : String) : ServerState :=
  { lb := none
    resetOnZero := goos == "windows"
    startBackendOnceDone := false
    runCalled := false
    lastUserID := ""
    activeReqs := [] }

/-- `Server.checkConnIdentityLocked`: if requests are already active,
compare the new identity's user against one active identity (Go picks an
arbitrary map entry; the model picks the list head); on mismatch return
the in-use error carrying that active user's name and pid. Otherwise ask
the backend whether the connection is allowed. -/
def checkConnIdentityLocked (s : ServerState) (lb : LocalBackend)
    (ci : ConnIdentity) : Option IPNError :=
  match s.activeReqs.head? with
  | some p =>
    if ci.windowsUserID != p.2.windowsUserID then
      some (.otherUser p.2.username p.2.pid)
    else
      match lb.checkIPNConnectionAllowed ci with
      | some msg => some (.backendDenied msg)
      | none => none
  | none =>
    match lb.checkIPNConnectionAllowed ci with
    | some msg => some (.backendDenied msg)
    | none => none

/-- Result of `addActiveHTTPRequest`: post-state, event trace, outcome. -/
structure AddResult where
  state : ServerState
  trace : List Event
  outcome : AddOutcome

/-- `Server.addActiveHTTPRequest`. A nil identity errors immediately;
`mustBackend` panics when no backend is bound. Otherwise, under the
lock: run `checkConnIdentityLocked`, register the request (`mak.Set`),
and on the first active request of a non-empty user id call
`SetCurrentUserID` and record a pending reset when the user changed from
a previous non-empty `lastUserID`. The deferred reset runs after the
deferred unlock (LIFO defer order in Go). -/
def addActiveHTTPRequest (s : ServerState) (req : Nat)
    (cio : Option ConnIdentity) : AddResult :=
  match cio with
  | none => ⟨s, [], .errored .nilConnIdentity⟩
  | some ci =>
    match s.lb with
    | none => ⟨s, [], .panicked "mustBackend"⟩
    | some lb =>
      match checkConnIdentityLocked s lb ci with
      | some e => ⟨s, [.muLock, .muUnlock], .errored (.inUse e)⟩
      | none =>
        let active2 := (req, ci) :: s.activeReqs
        let uid := ci.windowsUserID
        let isFirst := uid != "" && active2.length == 1
        let doReset := isFirst && s.lastUserID != uid && s.lastUserID != ""
        let last2 := if isFirst && s.lastUserID != uid then uid else s.lastUserID
        ⟨{ s with activeReqs := active2, lastUserID := last2 },
         [Event.muLock, Event.register req]
           ++ (if isFirst then [Event.setCurrentUserID uid] else [])
           ++ [Event.muUnlock]
           ++ (if doReset then [Event.reset] else []),
         .ok⟩

/-- The `onDone` closure returned by `addActiveHTTPRequest`: under the
lock, delete the request and read the remaining count; after unlocking,
if the count reached zero and `resetOnZero` is set, reset the backend
unless it reports server mode. (`lb` was captured at registration time;
the backend pointer never changes once set, so it is read from state.) -/
def onDone (s : ServerState) (req : Nat) : ServerState × List Event :=
  let active2 := s.activeReqs.filter (fun p => p.1 != req)
  let trace :=
    if active2.length == 0 && s.resetOnZero then
      match s.lb with
      | some lb =>
        if lb.inServerMode then [Event.muLock, Event.muUnlock]
        else [Event.muLock, Event.muUnlock, Event.reset]
      | none => [Event.muLock, Event.muUnlock]
    else [Event.muLock, Event.muUnlock]
  ({ s with activeReqs := active2 }, trace)

/-- Modelled from the spec: `ipnauth.ConnIdentity.IsReadonlyConn` is not
under src (only its caller `localAPIPermissions` is). Spec 4.2: write
"additionally requires the credential's user id differ from none and not
match a configured operator (restricted) id — i.e. the operator id gets
read-only". So a connection is read-only exactly when its credential
user id is absent or equals the operator user id. -/
def isReadonlyConn (ci : ConnIdentity) (operatorUID : String) : Bool :=
  match ci.creds.bind (fun c => c.userID) with
  | none => true
  | some uid => uid == operatorUID

/-- `Server.localAPIPermissions`: on Windows both permissions hinge on
`checkConnIdentityLocked`; on js both are granted; elsewhere read
requires a unix socket and write additionally requires the connection
not be read-only for the backend's operator user id. -/
def localAPIPermissions (goos : String) (s : ServerState)
    (lb : LocalBackend) (ci : ConnIdentity) : Bool × Bool :=
  if goos == "windows" then
    match checkConnIdentityLocked s lb ci with
    | none => (true, true)
    | some _ => (false, false)
  else if goos == "js" then (true, true)
  else if ci.isUnixSock then (true, !(isReadonlyConn ci lb.operatorUserID))
  else (false, false)

/-- `isAllDigit`: every byte is an ASCII digit. (Go loops over the
string's bytes; iterating characters is equivalent for this predicate,
since every byte of a multi-byte character is ≥ 0x80 and a one-byte
character is its own byte.) -/
def isAllDigit (s : String) : Bool :=
  s.data.all (fun c => ('0' ≤ c) && (c ≤ '9'))

/-- `userIDFromString`: an empty or all-digit value is returned
unchanged; otherwise it is resolved as a username via `user.Lookup`
(modelled by the `lookup` parameter, `none` on lookup error), returning
the resolved uid, or the empty string on error. -/
def userIDFromString (lookup : String → Option String) (v : String) : String :=
  if v == "" || isAllDigit v then v
  else
    match lookup v with
    | some u => u
    | none => ""

/-- `Server.connCanFetchCerts`: true only for a unix-socket connection
with present peer credentials whose uid (when available) equals the
configured `TS_PERMIT_CERT_UID` (the `permitCertUID` parameter) mapped
through `userIDFromString`. Reads no server state. -/
def connCanFetchCerts (permitCertUID : String)
    (lookup : String → Option String) (ci : ConnIdentity) : Bool :=
  if ci.isUnixSock then
    match ci.creds with
    | some cr =>
      match cr.userID with
      | some connUID => connUID == userIDFromString lookup permitCertUID
      | none => false
    | none => false
  else false

/-- Result of a lifecycle call (`SetLocalBackend`): post-state, trace,
and the panic message if it faulted. -/
structure LifecycleResult where
  state : ServerState
  trace : List Event
  panicMsg : Option String

/-- `Server.startBackendIfNeeded`: starts the backend via the
`sync.Once` guard only when `Run` has been called, a backend is bound,
and its prefs are valid. -/
def startBackendIfNeeded (s : ServerState) : ServerState × List Event :=
  if !s.runCalled then (s, [])
  else
    match s.lb with
    | none => (s, [])
    | some lb =>
      if lb.prefsValid then
        if s.startBackendOnceDone then (s, [])
        else ({ s with startBackendOnceDone := true }, [Event.start])
      else (s, [])

/-- `Server.SetLocalBackend`: panics on a nil argument; the
compare-and-swap from nil fails (panicking "already set") when a backend
is already bound; on success it binds and runs `startBackendIfNeeded`. -/
def SetLocalBackend (s : ServerState) (lbo : Option LocalBackend) :
    LifecycleResult :=
  match lbo with
  | none => ⟨s, [], some "nil LocalBackend"⟩
  | some lb =>
    match s.lb with
    | some _ => ⟨s, [], some "already set"⟩
    | none =>
      let r := startBackendIfNeeded { s with lb := some lb }
      ⟨r.1, r.2, none⟩

/-- The state-transition prefix of `Server.Run`: store `runCalled` and
invoke `startBackendIfNeeded` (the accept/serve loop is out of scope). -/
def runStart (s : ServerState) : ServerState × List Event :=
  startBackendIfNeeded { s with runCalled := true }

/-- Raw accepted connection as seen by the non-Windows identity
resolver: whether it is a `*net.UnixConn`, and the result of
`peercred.Get` (credentials, error). -/
structure ConnInfo where
  isUnixConn : Bool
  peercredGet : Option Creds × Option String

/-- The `connIdentity` record built by the non-Windows resolver. -/
structure NWConnIdentity where
  notWindows : Bool
  isUnixSock : Bool
  creds : Option Creds
  deriving DecidableEq, Repr

/-- Non-Windows `Server.getConnIdentity`: sets `NotWindows`, detects a
unix socket, and takes whatever credentials `peercred.Get` produced,
discarding its error; it never returns an error itself. -/
def getConnIdentityNonWindows (c : ConnInfo) :
    NWConnIdentity × Option String :=
  ({ notWindows := true
     isUnixSock := c.isUnixConn
     creds := c.peercredGet.1 }, none)

/-- Invariant of reachable server states: all active requests belong to
the same resolved user, and when that user id is non-empty it is the
recorded `lastUserID`. -/
structure Inv (s : ServerState) : Prop where
  same : ∀ p ∈ s.activeReqs, ∀ q ∈ s.activeReqs,
    p.2.windowsUserID = q.2.windowsUserID
  last : ∀ p ∈ s.activeReqs, p.2.windowsUserID ≠ "" →
    s.lastUserID = p.2.windowsUserID

theorem inv_New (goos : String) : Inv (New goos) := by
  constructor <;> intro p hp <;> simp [New] at hp

theorem checkConnIdentityLocked_mismatch (s : ServerState)
    (lb : LocalBackend) (ci : ConnIdentity) (p : Nat × ConnIdentity)
    (t : List (Nat × ConnIdentity)) (hL : s.activeReqs = p :: t)
    (hne : ci.windowsUserID ≠ p.2.windowsUserID) :
    checkConnIdentityLocked s lb ci =
      some (.otherUser p.2.username p.2.pid) := by
  simp only [checkConnIdentityLocked, hL, List.head?_cons]
  rw [if_pos]
  simpa using hne

theorem checkConnIdentityLocked_none_head (s : ServerState)
    (lb : LocalBackend) (ci : ConnIdentity) (p : Nat × ConnIdentity)
    (t : List (Nat × ConnIdentity)) (hL : s.activeReqs = p :: t)
    (hchk : checkConnIdentityLocked s lb ci = none) :
    ci.windowsUserID = p.2.windowsUserID := by
  by_contra hne
  rw [checkConnIdentityLocked_mismatch s lb ci p t hL hne] at hchk
  exact Option.noConfusion hchk

/-- `Inv` is preserved by request completion: `onDone` only removes
entries and leaves `lastUserID` unchanged. -/
theorem inv_onDone (s : ServerState) (req : Nat) (hinv : Inv s) :
    Inv (onDone s req).1 := by
  constructor
  · intro p hp q hq
    exact hinv.same p (List.mem_of_mem_filter hp) q (List.mem_of_mem_filter hq)
  · intro p hp h0
    exact hinv.last p (List.mem_of_mem_filter hp) h0

/-- `Inv` is preserved by `addActiveHTTPRequest` (on errors the state is
unchanged; on success the new request's user coincides with any already
active user, and `lastUserID` is updated exactly on the first request of
a non-empty user id). -/
theorem inv_addActive (s : ServerState) (lb : LocalBackend) (req : Nat)
    (ci : ConnIdentity) (hinv : Inv s) (hlb : s.lb = some lb) :
    Inv (addActiveHTTPRequest s req (some ci)).state := by
  cases hchk : checkConnIdentityLocked s lb ci with
  | some e => simpa [addActiveHTTPRequest, hlb, hchk] using hinv
  | none =>
    have hsame2 : ∀ p ∈ s.activeReqs,
        p.2.windowsUserID = ci.windowsUserID := by
      intro p hp
      cases hL : s.activeReqs with
      | nil => rw [hL] at hp; exact absurd hp (List.not_mem_nil p)
      | cons q t =>
        have heq := checkConnIdentityLocked_none_head s lb ci q t hL hchk
        have hq : q ∈ s.activeReqs := by
          rw [hL]; exact List.mem_cons_self q t
        rw [hinv.same p hp q hq, ← heq]
    have hall : ∀ r : Nat × ConnIdentity, r = (req, ci) ∨ r ∈ s.activeReqs →
        r.2.windowsUserID = ci.windowsUserID := by
      rintro r (rfl | hr)
      · rfl
      · exact hsame2 r hr
    constructor
    · intro p hp q hq
      simp only [addActiveHTTPRequest, hlb, hchk, List.mem_cons] at hp hq
      rw [hall p hp, hall q hq]
    · intro p hp h0
      simp only [addActiveHTTPRequest, hlb, hchk, List.mem_cons] at hp ⊢
      have hpu : p.2.windowsUserID = ci.windowsUserID := hall p hp
      rw [hpu] at h0 ⊢
      cases hL : s.activeReqs with
      | nil =>
        have b0 : (ci.windowsUserID != "") = true := by simpa using h0
        by_cases hlast : s.lastUserID = ci.windowsUserID
        · simp [b0, hlast]
        · simp [b0, hlast]
      | cons q t =>
        have hlen : (((req, ci) :: q :: t).length == 1) = false := by
          simp [beq_eq_false_iff_ne]
        simp only [hlen, Bool.and_false, Bool.false_and, Bool.false_eq_true,
          if_false]
        have heq := checkConnIdentityLocked_none_head s lb ci q t hL hchk
        have hq : q ∈ s.activeReqs := by
          rw [hL]; exact List.mem_cons_self q t
        have hq0 : q.2.windowsUserID ≠ "" := by rw [← heq]; exact h0
        rw [heq]
        exact hinv.last q hq hq0

/-! Concrete fixtures used by witnesses. -/

/-- A backend that allows every connection, with no operator configured. -/
def lbAll : LocalBackend :=
  { checkIPNConnectionAllowed := fun _ => none
    operatorUserID := ""
    inServerMode := false
    prefsValid := true }

def ciAlice : ConnIdentity :=
  { windowsUserID := "u1", username := "alice", pid := 3
    isUnixSock := false, creds := none }

def ciBob : ConnIdentity :=
  { windowsUserID := "u2", username := "bob", pid := 7
    isUnixSock := false, creds := none }

/-- A server with one active request from alice. -/
def sBusy : ServerState :=
  { lb := some lbAll, resetOnZero := true, startBackendOnceDone := false
    runCalled := false, lastUserID := "u1", activeReqs := [(1, ciAlice)] }

theorem inv_sBusy : Inv sBusy := by
  constructor
  · intro p hp q hq
    simp only [sBusy, List.mem_singleton] at hp hq
    rw [hp, hq]
  · intro p hp _
    simp only [sBusy, List.mem_singleton] at hp
    subst hp
    rfl

/-- C1: in any reachable state with an active request of user U1, a call
to `addActiveHTTPRequest` with an identity of a different resolved user
is rejected with the in-use-by-other-user error carrying an active
(conflicting) user's display name and pid, and the server state is
unchanged (the request is not registered). Since this holds for every
state with an active request of U1, it holds until U1's active count
returns to zero. -/
theorem single_active_user_rejects_other (s : ServerState)
    (lb : LocalBackend) (req : Nat) (ci : ConnIdentity)
    (p : Nat × ConnIdentity)
    (hinv : Inv s) (hlb : s.lb = some lb) (hp : p ∈ s.activeReqs)
    (hne : ci.windowsUserID ≠ p.2.windowsUserID) :
    ∃ q ∈ s.activeReqs,
      ci.windowsUserID ≠ q.2.windowsUserID ∧
      (addActiveHTTPRequest s req (some ci)).outcome =
        .errored (.inUse (.otherUser q.2.username q.2.pid)) ∧
      (addActiveHTTPRequest s req (some ci)).state = s := by
  cases hL : s.activeReqs with
  | nil => rw [hL] at hp; exact absurd hp (List.not_mem_nil p)
  | cons q t =>
    have hq : q ∈ s.activeReqs := by rw [hL]; exact List.mem_cons_self q t
    have hqp : q.2.windowsUserID = p.2.windowsUserID := hinv.same q hq p hp
    have hne2 : ci.windowsUserID ≠ q.2.windowsUserID := by rw [hqp]; exact hne
    have hchk := checkConnIdentityLocked_mismatch s lb ci q t hL hne2
    refine ⟨q, List.mem_cons_self q t, hne2, ?_, ?_⟩ <;>
      simp [addActiveHTTPRequest, hlb, hchk]

/-- Witness for C1 at a concrete state: alice (u1) active, bob (u2)
rejected with alice's name and pid. -/
theorem single_active_user_rejects_other_w :
    ∃ q ∈ sBusy.activeReqs,
      ciBob.windowsUserID ≠ q.2.windowsUserID ∧
      (addActiveHTTPRequest sBusy 2 (some ciBob)).outcome =
        .errored (.inUse (.otherUser q.2.username q.2.pid)) ∧
      (addActiveHTTPRequest sBusy 2 (some ciBob)).state = sBusy :=
  single_active_user_rejects_other sBusy lbAll 2 ciBob (1, ciAlice)
    inv_sBusy rfl (by simp [sBusy]) (by decide)

/-- An idle server whose last active user was u1. -/
def sIdleU1 : ServerState :=
  { lb := some lbAll, resetOnZero := true, startBackendOnceDone := false
    runCalled := false, lastUserID := "u1", activeReqs := [] }

theorem inv_sIdleU1 : Inv sIdleU1 := by
  constructor <;> intro p hp <;> simp [sIdleU1] at hp

/-- C2: on a successful registration in a reachable state, a backend
reset is issued exactly when the new non-empty user id differs from a
non-empty recorded `lastUserID` — and then exactly once, as the final
event of the call, after the request was registered in the active map
and after the lock was released; in all other successful registrations
no reset is issued. -/
theorem user_switch_reset_once (s : ServerState) (lb : LocalBackend)
    (req : Nat) (ci : ConnIdentity)
    (hinv : Inv s) (hlb : s.lb = some lb)
    (hok : (addActiveHTTPRequest s req (some ci)).outcome = .ok) :
    (ci.windowsUserID ≠ "" ∧ s.lastUserID ≠ ci.windowsUserID ∧
        s.lastUserID ≠ "" →
      ∃ t, (addActiveHTTPRequest s req (some ci)).trace =
            t ++ [Event.reset] ∧
        Event.reset ∉ t ∧
        Event.register req ∈ t ∧
        t.getLast? = some Event.muUnlock ∧
        (req, ci) ∈ (addActiveHTTPRequest s req (some ci)).state.activeReqs) ∧
    (¬(ci.windowsUserID ≠ "" ∧ s.lastUserID ≠ ci.windowsUserID ∧
        s.lastUserID ≠ "") →
      Event.reset ∉ (addActiveHTTPRequest s req (some ci)).trace) := by
  have hchk : checkConnIdentityLocked s lb ci = none := by
    cases hc : checkConnIdentityLocked s lb ci with
    | none => rfl
    | some e => simp [addActiveHTTPRequest, hlb, hc] at hok
  constructor
  · rintro ⟨h1, h2, h3⟩
    have hE : s.activeReqs = [] := by
      cases hL : s.activeReqs with
      | nil => rfl
      | cons q t =>
        exfalso
        have hq : q ∈ s.activeReqs := by
          rw [hL]; exact List.mem_cons_self q t
        have heq := checkConnIdentityLocked_none_head s lb ci q t hL hchk
        by_cases hq0 : q.2.windowsUserID = ""
        · exact h1 (heq.trans hq0)
        · exact h2 ((hinv.last q hq hq0).trans heq.symm)
    have b1 : (ci.windowsUserID != "") = true := by simpa using h1
    have b2 : (s.lastUserID != ci.windowsUserID) = true := by simpa using h2
    have b3 : (s.lastUserID != "") = true := by simpa using h3
    refine ⟨[Event.muLock, Event.register req,
             Event.setCurrentUserID ci.windowsUserID, Event.muUnlock],
            ?_, ?_, ?_, ?_, ?_⟩
    · simp [addActiveHTTPRequest, hlb, hchk, hE, b1, b2, b3]
    · simp
    · simp
    · rfl
    · simp [addActiveHTTPRequest, hlb, hchk, hE]
  · intro hn
    have hn2 : ci.windowsUserID = "" ∨ s.lastUserID = ci.windowsUserID ∨
        s.lastUserID = "" := by
      by_contra hc
      push_neg at hc
      exact hn ⟨hc.1, hc.2.1, hc.2.2⟩
    simp only [addActiveHTTPRequest, hlb, hchk]
    rcases hn2 with h | h | h <;>
      · simp only [h, bne_self_eq_false, Bool.false_and, Bool.and_false,
          Bool.false_and, if_false]
        split <;> simp_all

/-- Witness for C2: bob registers on an idle server last used by u1; the
call issues exactly one reset, after bob's request is registered and the
lock is released. -/
theorem user_switch_reset_once_w :
    (ciBob.windowsUserID ≠ "" ∧ sIdleU1.lastUserID ≠ ciBob.windowsUserID ∧
        sIdleU1.lastUserID ≠ "" →
      ∃ t, (addActiveHTTPRequest sIdleU1 2 (some ciBob)).trace =
            t ++ [Event.reset] ∧
        Event.reset ∉ t ∧
        Event.register 2 ∈ t ∧
        t.getLast? = some Event.muUnlock ∧
        (2, ciBob) ∈
          (addActiveHTTPRequest sIdleU1 2 (some ciBob)).state.activeReqs) ∧
    (¬(ciBob.windowsUserID ≠ "" ∧ sIdleU1.lastUserID ≠ ciBob.windowsUserID ∧
        sIdleU1.lastUserID ≠ "") →
      Event.reset ∉ (addActiveHTTPRequest sIdleU1 2 (some ciBob)).trace) :=
  user_switch_reset_once sIdleU1 lbAll 2 ciBob inv_sIdleU1 rfl rfl

/-- C3: when a request completion brings the active-request count to
zero, the server resets the backend exactly once if `resetOnZero` is set
and the backend is not in persistent server mode, and issues no reset
when `resetOnZero` is unset or the backend reports server mode. -/
theorem idle_reset (s : ServerState) (lb : LocalBackend) (req : Nat)
    (hlb : s.lb = some lb)
    (hzero : (onDone s req).1.activeReqs = []) :
    (s.resetOnZero = true ∧ lb.inServerMode = false →
      (onDone s req).2 = [Event.muLock, Event.muUnlock, Event.reset]) ∧
    (s.resetOnZero = false ∨ lb.inServerMode = true →
      (onDone s req).2 = [Event.muLock, Event.muUnlock]) := by
  have hA : s.activeReqs.filter (fun p => p.1 != req) = [] := hzero
  constructor
  · rintro ⟨hr, hm⟩
    simp [onDone, hA, hr, hlb, hm]
  · rintro (hr | hm)
    · simp [onDone, hA, hr]
    · simp [onDone, hA, hlb, hm]

/-- Witness for C3: alice's only request completes on a reset-on-zero
server whose backend is not in server mode; exactly one reset occurs. -/
theorem idle_reset_w :
    (sBusy.resetOnZero = true ∧ lbAll.inServerMode = false →
      (onDone sBusy 1).2 = [Event.muLock, Event.muUnlock, Event.reset]) ∧
    (sBusy.resetOnZero = false ∨ lbAll.inServerMode = true →
      (onDone sBusy 1).2 = [Event.muLock, Event.muUnlock]) :=
  idle_reset sBusy lbAll 1 rfl rfl

theorem startBackendIfNeeded_lb (s : ServerState) :
    (startBackendIfNeeded s).1.lb = s.lb := by
  unfold startBackendIfNeeded
  split
  · rfl
  · split
    · rfl
    · split
      · split <;> rfl
      · rfl

/-- C4: the backend reference is settable exactly once: on a server with
no backend bound, `SetLocalBackend` with a non-nil backend succeeds and
binds it; with a backend already bound, any call (in particular in any
order relative to `Run`, whose `runCalled` flag it never consults)
panics and leaves the state unchanged; a nil argument always panics. -/
theorem set_local_backend_exactly_once :
    (∀ s : ServerState, ∀ lb : LocalBackend, s.lb = none →
      (SetLocalBackend s (some lb)).panicMsg = none ∧
      (SetLocalBackend s (some lb)).state.lb = some lb) ∧
    (∀ s : ServerState, ∀ lb0 : LocalBackend, ∀ x : Option LocalBackend,
      s.lb = some lb0 →
      (SetLocalBackend s x).panicMsg ≠ none ∧
      (SetLocalBackend s x).state = s) ∧
    (∀ s : ServerState,
      (SetLocalBackend s none).panicMsg = some "nil LocalBackend") := by
  refine ⟨?_, ?_, ?_⟩
  · intro s lb h
    refine ⟨by simp [SetLocalBackend, h], ?_⟩
    have := startBackendIfNeeded_lb { s with lb := some lb }
    simp [SetLocalBackend, h, this]
  · intro s lb0 x h
    cases x with
    | none => exact ⟨by simp [SetLocalBackend], rfl⟩
    | some lb => exact ⟨by simp [SetLocalBackend, h], by simp [SetLocalBackend, h]⟩
  · intro s
    rfl

/-- Witness for C4: a fresh server accepts one bind; a server with a
bound backend rejects a second bind without changing state; nil panics. -/
theorem set_local_backend_exactly_once_w :
    ((SetLocalBackend (New "linux") (some lbAll)).panicMsg = none ∧
      (SetLocalBackend (New "linux") (some lbAll)).state.lb = some lbAll) ∧
    ((SetLocalBackend sBusy (some lbAll)).panicMsg ≠ none ∧
      (SetLocalBackend sBusy (some lbAll)).state = sBusy) ∧
    (SetLocalBackend (New "linux") none).panicMsg = some "nil LocalBackend" :=
  ⟨set_local_backend_exactly_once.1 (New "linux") lbAll rfl,
   set_local_backend_exactly_once.2.1 sBusy lbAll (some lbAll) rfl,
   set_local_backend_exactly_once.2.2 (New "linux")⟩

/-- C5: the backend is started exactly once. For both orders of binding
and running from a fresh state with valid prefs, the combined event
trace contains exactly one `start`; `startBackendIfNeeded` emits a
`start` only when `Run` was called, a backend is bound with valid prefs,
and the once-guard has not fired; and once the guard has fired it never
emits another `start`. -/
theorem backend_start_exactly_once :
    (∀ s : ServerState, ∀ lb : LocalBackend,
      s.lb = none → s.runCalled = false → s.startBackendOnceDone = false →
      lb.prefsValid = true →
      ((SetLocalBackend s (some lb)).trace ++
          (runStart (SetLocalBackend s (some lb)).state).2 =
        [Event.start]) ∧
      ((runStart s).2 ++
          (SetLocalBackend (runStart s).1 (some lb)).trace =
        [Event.start])) ∧
    (∀ s : ServerState, Event.start ∈ (startBackendIfNeeded s).2 →
      s.runCalled = true ∧ s.startBackendOnceDone = false ∧
      ∃ lb, s.lb = some lb ∧ lb.prefsValid = true) ∧
    (∀ s : ServerState, s.startBackendOnceDone = true →
      (startBackendIfNeeded s).2 = []) := by
  refine ⟨?_, ?_, ?_⟩
  · intro s lb hlb hrun honce hpref
    constructor
    · simp [SetLocalBackend, runStart, startBackendIfNeeded, hlb, hrun,
        honce, hpref]
    · simp [SetLocalBackend, runStart, startBackendIfNeeded, hlb, hrun,
        honce, hpref]
  · intro s h
    cases hrc : s.runCalled with
    | false => simp [startBackendIfNeeded, hrc] at h
    | true =>
      cases hlb2 : s.lb with
      | none => simp [startBackendIfNeeded, hrc, hlb2] at h
      | some lb =>
        cases hpv : lb.prefsValid with
        | false => simp [startBackendIfNeeded, hrc, hlb2, hpv] at h
        | true =>
          cases honce : s.startBackendOnceDone with
          | true => simp [startBackendIfNeeded, hrc, hlb2, hpv, honce] at h
          | false => exact ⟨rfl, rfl, lb, rfl, hpv⟩
  · intro s h
    unfold startBackendIfNeeded
    split
    · rfl
    · split
      · rfl
      · split
        · simp [h]
        · rfl

/-- Witness for C5: from a fresh server, binding the valid backend and
then running — or running and then binding — emits exactly one start. -/
theorem backend_start_exactly_once_w :
    ((SetLocalBackend (New "linux") (some lbAll)).trace ++
        (runStart (SetLocalBackend (New "linux") (some lbAll)).state).2 =
      [Event.start]) ∧
    ((runStart (New "linux")).2 ++
        (SetLocalBackend (runStart (New "linux")).1 (some lbAll)).trace =
      [Event.start]) :=
  backend_start_exactly_once.1 (New "linux") lbAll rfl rfl rfl rfl

/-- C6 counterexample: permission computation is not independent of the
set of currently active requests. On Windows, with the identical tuple
(platform "windows", connection kind, credential `ciBob`, operator id,
permitted-cert uid) — `sIdleU1` and `sBusy` differ only in
`activeReqs` — an idle server grants bob (read, write) = (true, true)
while a server with alice's request active yields (false, false). -/
theorem localAPIPermissions_not_pure :
    localAPIPermissions "windows" sIdleU1 lbAll ciBob = (true, true) ∧
    localAPIPermissions "windows" sBusy lbAll ciBob = (false, false) ∧
    localAPIPermissions "windows" sIdleU1 lbAll ciBob ≠
      localAPIPermissions "windows" sBusy lbAll ciBob :=
  ⟨rfl, rfl, by decide⟩

/-- C6 amended: on non-Windows platforms permission computation is pure —
`localAPIPermissions` yields identical results for any two server states
given the same (platform, identity, backend operator setting), and
`connCanFetchCerts` reads no server state at all (it is a function of
the identity and the permitted-cert configuration only); on Windows the
result additionally depends on the active-request set and the backend
connection policy via the single-user check. -/
theorem localAPIPermissions_pure_nonwindows (goos : String)
    (s1 s2 : ServerState) (lb : LocalBackend) (ci : ConnIdentity)
    (h : goos ≠ "windows") :
    localAPIPermissions goos s1 lb ci = localAPIPermissions goos s2 lb ci := by
  have hb : (goos == "windows") = false := by simpa using h
  simp [localAPIPermissions, hb]

/-- Witness for amended C6 at platform "linux": the idle and busy states
produce the same permissions. -/
theorem localAPIPermissions_pure_nonwindows_w :
    localAPIPermissions "linux" sIdleU1 lbAll ciBob =
      localAPIPermissions "linux" sBusy lbAll ciBob :=
  localAPIPermissions_pure_nonwindows "linux" sIdleU1 sBusy lbAll ciBob
    (by decide)

/-- A backend whose operator user id is "1000". -/
def lbOp1000 : LocalBackend :=
  { checkIPNConnectionAllowed := fun _ => none
    operatorUserID := "1000"
    inServerMode := false
    prefsValid := true }

/-- A unix-socket connection whose peer credential uid is "1000". -/
def ciUnix1000 : ConnIdentity :=
  { windowsUserID := "", username := "worker", pid := 11
    isUnixSock := true, creds := some { userID := some "1000" } }

/-- C7: on non-Windows, non-js platforms, read is granted iff the
connection is a unix domain socket and write iff additionally the
connection is not read-only for the backend's operator user id; in the
concrete scenario (unix socket, credential uid "1000", operator id
"1000", permitted-cert uid unset) the result is read, no write, and no
cert fetch. -/
theorem domain_socket_permissions :
    (∀ goos : String, ∀ s : ServerState, ∀ lb : LocalBackend,
      ∀ ci : ConnIdentity, goos ≠ "windows" → goos ≠ "js" →
      localAPIPermissions goos s lb ci =
        (ci.isUnixSock,
          ci.isUnixSock && !(isReadonlyConn ci lb.operatorUserID))) ∧
    (localAPIPermissions "linux" sIdleU1 lbOp1000 ciUnix1000 =
        (true, false) ∧
      connCanFetchCerts "" (fun _ => none) ciUnix1000 = false) := by
  refine ⟨?_, rfl, rfl⟩
  intro goos s lb ci h1 h2
  have hb1 : (goos == "windows") = false := by simpa using h1
  have hb2 : (goos == "js") = false := by simpa using h2
  cases hu : ci.isUnixSock <;> simp [localAPIPermissions, hb1, hb2, hu]

/-- Witness for C7 on platform "linux" with the scenario identity. -/
theorem domain_socket_permissions_w :
    localAPIPermissions "linux" sIdleU1 lbOp1000 ciUnix1000 =
      (ciUnix1000.isUnixSock,
        ciUnix1000.isUnixSock &&
          !(isReadonlyConn ciUnix1000 lbOp1000.operatorUserID)) :=
  domain_socket_permissions.1 "linux" sIdleU1 lbOp1000 ciUnix1000
    (by decide) (by decide)

/-- C8: cert fetching is granted exactly for a unix-socket connection
with present peer credentials whose uid equals the configured
permitted-cert value mapped through `userIDFromString`; that mapping
returns empty or all-digit values unchanged, resolves other values as
usernames, and on lookup failure yields the empty string, which matches
no (non-empty) credential uid. -/
theorem conn_can_fetch_certs_iff (permit : String)
    (lookup : String → Option String) (ci : ConnIdentity) :
    (connCanFetchCerts permit lookup ci = true ↔
      ci.isUnixSock = true ∧
      ∃ uid, ci.creds.bind (fun c => c.userID) = some uid ∧
        uid = userIDFromString lookup permit) ∧
    (∀ v, v = "" ∨ isAllDigit v = true → userIDFromString lookup v = v) ∧
    (∀ v, v ≠ "" → isAllDigit v = false →
      userIDFromString lookup v = (lookup v).getD "") ∧
    (isAllDigit permit = false → lookup permit = none →
      ∀ uid, ci.creds.bind (fun c => c.userID) = some uid → uid ≠ "" →
      connCanFetchCerts permit lookup ci = false) := by
  refine ⟨?_, ?_, ?_, ?_⟩
  · cases hu : ci.isUnixSock with
    | false => simp [connCanFetchCerts, hu]
    | true =>
      cases hc : ci.creds with
      | none => simp [connCanFetchCerts, hu, hc]
      | some cr =>
        cases hU : cr.userID with
        | none => simp [connCanFetchCerts, hu, hc, hU]
        | some connUID => simp [connCanFetchCerts, hu, hc, hU]
  · rintro v (he | hd)
    · subst he; rfl
    · simp [userIDFromString, hd]
  · intro v h1 h2
    have hb : (v == "") = false := by simpa using h1
    simp only [userIDFromString, hb, h2, Bool.or_self, Bool.false_eq_true,
      if_false]
    cases lookup v <;> rfl
  · intro hd hlk uid huid hne
    have hperm : (permit == "") = false := by
      have : isAllDigit "" = true := by decide
      rcases hE : (permit == "") with _ | _
      · rfl
      · rw [beq_iff_eq] at hE
        rw [hE, this] at hd
        exact Bool.noConfusion hd
    have hres : userIDFromString lookup permit = "" := by
      simp [userIDFromString, hperm, hd, hlk]
    cases hu : ci.isUnixSock with
    | false => simp [connCanFetchCerts, hu]
    | true =>
      cases hc : ci.creds with
      | none => simp [hc] at huid
      | some cr =>
        cases hU : cr.userID with
        | none => simp [hc, hU] at huid
        | some u2 =>
          have hu2 : u2 = uid := by
            simpa [hc, hU] using huid
          subst hu2
          simp [connCanFetchCerts, hu, hc, hU, hres, hne]

/-- Witness for C8: an all-digit permitted value is used verbatim, and a
failing username lookup grants no cert fetch even to uid "1000". -/
theorem conn_can_fetch_certs_iff_w :
    userIDFromString (fun _ => none) "998" = "998" ∧
    connCanFetchCerts "nosuch" (fun _ => none) ciUnix1000 = false :=
  ⟨(conn_can_fetch_certs_iff "998" (fun _ => none) ciUnix1000).2.1 "998"
      (Or.inr (by decide)),
   (conn_can_fetch_certs_iff "nosuch" (fun _ => none) ciUnix1000).2.2.2
      (by decide) rfl "1000" rfl (by decide)⟩

/-- C9: the non-Windows identity resolver never fails: for every
connection it returns a nil error and an identity with `NotWindows` set,
`IsUnixSock` set iff the connection is a unix socket, and the
credentials taken from `peercred.Get` with its error discarded — in
particular the credentials field is simply absent when peer credentials
cannot be obtained. -/
theorem getConnIdentity_nonwindows_total (c : ConnInfo) :
    (getConnIdentityNonWindows c).2 = none ∧
    (getConnIdentityNonWindows c).1.notWindows = true ∧
    (getConnIdentityNonWindows c).1.isUnixSock = c.isUnixConn ∧
    (getConnIdentityNonWindows c).1.creds = c.peercredGet.1 ∧
    (c.peercredGet.1 = none → (getConnIdentityNonWindows c).1.creds = none) :=
  ⟨rfl, rfl, rfl, rfl, fun h => h⟩

/-- Witness for C9: a unix-socket connection whose `peercred.Get` failed
still resolves, with no credentials and no error. -/
theorem getConnIdentity_nonwindows_total_w :
    (getConnIdentityNonWindows ⟨true, (none, some "not supported")⟩).2 =
        none ∧
    (getConnIdentityNonWindows
        ⟨true, (none, some "not supported")⟩).1.notWindows = true ∧
    (getConnIdentityNonWindows
        ⟨true, (none, some "not supported")⟩).1.isUnixSock =
      (⟨true, (none, some "not supported")⟩ : ConnInfo).isUnixConn ∧
    (getConnIdentityNonWindows
        ⟨true, (none, some "not supported")⟩).1.creds =
      (⟨true, (none, some "not supported")⟩ : ConnInfo).peercredGet.1 ∧
    ((⟨true, (none, some "not supported")⟩ : ConnInfo).peercredGet.1 =
        none →
      (getConnIdentityNonWindows
          ⟨true, (none, some "not supported")⟩).1.creds = none) :=
  getConnIdentity_nonwindows_total ⟨true, (none, some "not supported")⟩

/-- C10: a failed `addActiveHTTPRequest` (nil identity, identity
conflict, or backend policy rejection) changes nothing: the server state
(active map and `lastUserID`) is returned unchanged and the call emits
no `SetCurrentUserID`, no reset, and no registration. -/
theorem add_request_rejection_atomic (s : ServerState) (req : Nat)
    (cio : Option ConnIdentity) (e : AddError)
    (herr : (addActiveHTTPRequest s req cio).outcome = .errored e) :
    (addActiveHTTPRequest s req cio).state = s ∧
    (∀ u, Event.setCurrentUserID u ∉ (addActiveHTTPRequest s req cio).trace) ∧
    Event.reset ∉ (addActiveHTTPRequest s req cio).trace ∧
    (∀ n, Event.register n ∉ (addActiveHTTPRequest s req cio).trace) := by
  cases cio with
  | none =>
    exact ⟨rfl, by simp [addActiveHTTPRequest], by simp [addActiveHTTPRequest],
      by simp [addActiveHTTPRequest]⟩
  | some ci =>
    cases hlb : s.lb with
    | none => simp [addActiveHTTPRequest, hlb] at herr
    | some lb =>
      cases hchk : checkConnIdentityLocked s lb ci with
      | some e2 =>
        refine ⟨?_, ?_, ?_, ?_⟩ <;> simp [addActiveHTTPRequest, hlb, hchk]
      | none => simp [addActiveHTTPRequest, hlb, hchk] at herr

/-- Witness for C10: bob's rejected request leaves alice's server
untouched and silent. -/
theorem add_request_rejection_atomic_w :
    (addActiveHTTPRequest sBusy 2 (some ciBob)).state = sBusy ∧
    (∀ u, Event.setCurrentUserID u ∉
      (addActiveHTTPRequest sBusy 2 (some ciBob)).trace) ∧
    Event.reset ∉ (addActiveHTTPRequest sBusy 2 (some ciBob)).trace ∧
    (∀ n, Event.register n ∉
      (addActiveHTTPRequest sBusy 2 (some ciBob)).trace) :=
  add_request_rejection_atomic sBusy 2 (some ciBob)
    (.inUse (.otherUser "alice" 3)) rfl

end IpnServer
